import Mathlib

/-!
Verification development for the blood-pressure reading extraction pipeline
(`src/functions/py/main.py`, entry point `process_bp`).

The Python source is shallowly embedded below.  External library calls
(OpenCV, pytesseract, easyocr, Cloud Storage, Firestore, base64/imdecode)
are modelled as oracles collected in an `Env` record; each oracle that can
raise a Python exception is a function into `Except PyErr _`.  The repo's
own code — the glue in `process_bp` and its helpers `find_display`,
`ocr_tess`, `ocr_easy`, `upload_blob` — is translated line by line.
Durable persistence (uploaded blob paths, written documents) is threaded as
explicit state `PState`; the outermost `try/except` of `process_bp` is the
pattern matching on `Except` results, ending in either an `ok` payload
(HTTP 200 with the document) or an `err` payload (HTTP 500 with `str(e)`).
-/

/-- Message of a raised Python exception, as the boundary's `str(e)`. -/
abbrev PyErr := String

/-- A 2-D pixel grid (grayscale or one channel of interest); `pix` gives the
intensity at row/column.  Out-of-range reads are irrelevant: every access the
pipeline makes is in range. -/
@[ext]
structure Image where
  h : Nat
  w : Nat
  pix : Nat → Nat → ℚ

/-- Numpy basic slicing `img[y0:y1, x0:x1]` with nonnegative indices:
indices are clamped to the array bounds, an empty slice has size 0. -/
def npSlice (img : Image) (y0 y1 x0 x1 : Nat) : Image :=
  let ya := min y0 img.h
  let yb := min y1 img.h
  let xa := min x0 img.w
  let xb := min x1 img.w
  ⟨yb - ya, xb - xa, fun i j => img.pix (ya + i) (xa + j)⟩

/-- Row-major list of all (row, col) positions of an `h × w` grid, the scan
order of `cv2.minMaxLoc`. -/
def allLocs (h w : Nat) : List (Nat × Nat) :=
  (List.range h).flatMap fun y => (List.range w).map fun x => (y, x)

/-- The fold `cv2.minMaxLoc` performs to find the maximum position: the
current best is replaced only by a strictly greater score, so the first
occurrence of the maximum wins. -/
def foldBest (m : Image) (p : Nat × Nat) (ps : List (Nat × Nat)) : Nat × Nat :=
  ps.foldl (fun b q => if m.pix b.1 b.2 < m.pix q.1 q.2 then q else b) p

/-- `cv2.minMaxLoc(res)`'s fourth component: the (x, y) location of the
global maximum of the score matrix, scanning row-major from (0, 0). -/
def minMaxLocMax (m : Image) : Nat × Nat :=
  let b := foldBest m (0, 0) (allLocs m.h m.w)
  (b.2, b.1)

/-- `cv2.matchTemplate(gray, TEMPLATE, TM_CCOEFF_NORMED)`: raises when the
input is smaller than the template in either dimension, otherwise yields a
`(H - th + 1) × (W - tw + 1)` matrix of correlation scores.  The score
values themselves come from the OpenCV oracle (`scores`); only the shape is
fixed by the library contract. -/
def matchTemplate (gray tmpl : Image) (scores : Nat → Nat → ℚ) : Except PyErr Image :=
  if gray.h < tmpl.h ∨ gray.w < tmpl.w then
    .error "matchTemplate: image smaller than template"
  else
    .ok ⟨gray.h - tmpl.h + 1, gray.w - tmpl.w + 1, scores⟩

/-- Source `find_display(gray)`: template-match, take the max location
`(x, y)`, and return `gray[y:y+ROI_H, x:x+ROI_W]` together with `(x, y)`.
`ROI_H`/`ROI_W` are the template's height/width. -/
def find_display (gray tmpl : Image) (scores : Nat → Nat → ℚ) :
    Except PyErr (Image × Nat × Nat) :=
  match matchTemplate gray tmpl scores with
  | .error e => .error e
  | .ok res =>
    let loc := minMaxLocMax res
    let x := loc.1
    let y := loc.2
    .ok (npSlice gray y (y + tmpl.h) x (x + tmpl.w), x, y)

/-- Python `str.strip()` on the recognizer output. -/
def pyStrip (s : String) : String := s.trim

/-- Source `ocr_tess(img)`: the pytesseract call (digit whitelist, psm 7),
then `.strip()`.  A raise inside the engine propagates. -/
def ocr_tess (engine : Image → Except PyErr String) (img : Image) :
    Except PyErr String :=
  match engine img with
  | .error e => .error e
  | .ok s => .ok (pyStrip s)

/-- Source `ocr_easy(img)`: `''.join(OCR_READER.readtext(img, detail=0))`
then `.strip()`; the fragments are concatenated in detection order with no
separator.  A raise inside the engine propagates. -/
def ocr_easy (engine : Image → Except PyErr (List String)) (img : Image) :
    Except PyErr String :=
  match engine img with
  | .error e => .error e
  | .ok frags => .ok (pyStrip (String.join frags))

/-- Python `s.isdigit()` for the recognizer outputs: nonempty and every
character a digit.  The primary recognizer is whitelist-constrained to
`0123456789`, so its stripped output ranges over ASCII digit strings; on
that domain `str.isdigit` is exactly this predicate. -/
def pyIsDigit (s : String) : Bool :=
  !s.toList.isEmpty && s.toList.all Char.isDigit

/-- Python `int(s)` on an all-digit string: the denoted decimal number. -/
def pyInt (s : String) : Nat :=
  s.toList.foldl (fun a c => 10 * a + (c.toNat - 48)) 0

/-- Source `int(x) if x.isdigit() else None` (lines 93–95): the parsed
numeric value of a field, absent unless the text is purely numeric. -/
def parse_field (s : String) : Option Nat :=
  if pyIsDigit s then some (pyInt s) else none

/-- Independent characterization of the number a digit string denotes:
most significant digit first, ASCII code minus 48 per digit. -/
def decimalDenote : List Char → Nat
  | [] => 0
  | c :: cs => (c.toNat - 48) * 10 ^ cs.length + decimalDenote cs

/-- Source constant `VAR_THRESHOLD = 10.0` (line 22). -/
def VAR_THRESHOLD : ℚ := 10

/-- Source `glare_detected = variance < VAR_THRESHOLD` (line 59). -/
def glare_detected_of (variance : ℚ) : Bool :=
  decide (variance < VAR_THRESHOLD)

/-- Source `consensus = primary == second` (line 67): Python list equality
of the two 3-element lists of raw texts. -/
def consensus_of (primary second : List String) : Bool :=
  primary == second

/-- Source lines 62–63: `h = display.shape[0] // 3` and
`crops = [display[i*h:(i+1)*h, :] for i in range(3)]`, the comprehension
unrolled over `range(3)`.  Index 0 is the systolic band, 1 diastolic,
2 pulse (the destructuring order of line 69). -/
def segment_fields (display : Image) : List Image :=
  let h := display.h / 3
  [npSlice display (0 * h) (1 * h) 0 display.w,
   npSlice display (1 * h) (2 * h) 0 display.w,
   npSlice display (2 * h) (3 * h) 0 display.w]

/-- Python `str.split(",")` on a character list (non-regex split keeping
empty pieces, as Python does for a non-empty separator). -/
def splitCommaAux : List Char → List (List Char)
  | [] => [[]]
  | c :: cs =>
    if c = ',' then [] :: splitCommaAux cs
    else
      match splitCommaAux cs with
      | [] => [[c]]
      | t :: ts => (c :: t) :: ts

/-- Source line 52: `data["image_base64"].split(",")[-1]` — the last piece
of the comma-split, i.e. the text after the last comma. -/
def pySplitCommaLast (s : String) : String :=
  String.mk ((splitCommaAux s.toList).getLastD [])

/-- Python `round(x, 2)` (round-half-to-even at two decimal places), used
for the stored `variance` field. -/
def round2 (v : ℚ) : ℚ :=
  let x := v * 100
  let f : ℤ := x.floor
  let r := x - (f : ℚ)
  let n : ℤ :=
    if r < 1 / 2 then f
    else if 1 / 2 < r then f + 1
    else if f % 2 = 0 then f else f + 1
  (n : ℚ) / 100

/-- The `ocr_raw` object of the stored document: primary text per field. -/
structure OcrTriple where
  sys : String
  dia : String
  pul : String
deriving DecidableEq

/-- The `ocr_alternates` object: per field the two-element array
`[primaryText, secondaryText]`. -/
structure AltTriple where
  sys : List String
  dia : List String
  pul : List String
deriving DecidableEq

/-- The document `doc` assembled at lines 80–96 and both persisted and
returned on success. -/
structure Doc where
  timestamp : String
  glare_detected : Bool
  variance : ℚ
  image_url : String
  heatmap_url : String
  ocr_raw : OcrTriple
  consensus : Bool
  ocr_alternates : AltTriple
  systolic : Option Nat
  diastolic : Option Nat
  pulse : Option Nat
deriving DecidableEq

/-- The HTTP-level outcome: `(json.dumps(doc), 200, …)` on success,
`(json.dumps({"error": str(e)}), 500, …)` from the outermost handler. -/
inductive Resp where
  | ok (doc : Doc)
  | err (msg : String)
deriving DecidableEq

/-- Durable persistence state: uploaded blob paths (in upload order) and
written Firestore documents keyed by id. -/
abbrev PState := List String × List (String × Doc)

/-- External collaborators and process-wide constants of one invocation.
Each field models one library call of the source; the fallible ones return
`Except` (an `error` is a raised Python exception). -/
structure Env where
  /-- The grayscale reference template `TEMPLATE` (line 20). -/
  template : Image
  /-- `cv2.imdecode(np.frombuffer(base64.b64decode(b64), …))` plus the
  subsequent failure of `cvtColor` on a `None` decode: the color image, or
  the raised decode-stage exception. -/
  decodeImg : String → Except PyErr Image
  /-- Pixel content of `cv2.cvtColor(img, COLOR_BGR2GRAY)`; the dimensions
  are preserved by the library contract (see `process_bp`). -/
  grayPix : Image → Nat → Nat → ℚ
  /-- The normalized cross-correlation scores `cv2.matchTemplate` computes
  for a given image and template (shape handled in `matchTemplate`). -/
  scores : Image → Image → Nat → Nat → ℚ
  /-- `cv2.Laplacian(gray, CV_64F).var()` — the source's `lap_var`. -/
  lapVar : Image → ℚ
  /-- `pytesseract.image_to_string(img, config=cfg)` before stripping. -/
  tessRaw : Image → Except PyErr String
  /-- `OCR_READER.readtext(img, detail=0)` — the fragment list. -/
  easyRaw : Image → Except PyErr (List String)
  /-- `img.copy()` plus `cv2.rectangle(…, (dx, dy), (dx+W, dy+H), …)`. -/
  annotateImg : Image → Nat → Nat → Image
  /-- `cv2.applyColorMap(display, COLORMAP_JET)`. -/
  colorMapImg : Image → Image
  /-- `blob.upload_from_string` result: the public URL, or a raised
  storage exception (no durable effect on failure). -/
  uploadRes : String → Image → Except PyErr String
  /-- `db.collection("readings").document(uid).set(doc)`. -/
  dbSetRes : String → Doc → Except PyErr Unit
  /-- `datetime.datetime.utcnow().isoformat()`. -/
  now : String
  /-- `uuid.uuid4().hex`. -/
  uid : String

/-- Source `upload_blob(path, img_bgr)`: on success the blob at `path` is
durably stored and its public URL returned. -/
def upload_blob (env : Env) (path : String) (img : Image) (st : PState) :
    Except PyErr String × PState :=
  match env.uploadRes path img with
  | .error e => (.error e, st)
  | .ok url => (.ok url, (st.1 ++ [path], st.2))

/-- A Python list comprehension `[f(c) for c in l]` over fallible `f`:
evaluated left to right, the first raise aborts the whole comprehension. -/
def mapExcept {α β : Type} (f : α → Except PyErr β) : List α → Except PyErr (List β)
  | [] => .ok []
  | c :: cs =>
    match f c with
    | .error e => .error e
    | .ok b =>
      match mapExcept f cs with
      | .error e => .error e
      | .ok bs => .ok (b :: bs)

/-- Source `process_bp(request)` (lines 49–101).  `request` is the result
of `request.get_json(force=True)["image_base64"]` (a raise there is fatal
like any other).  The outermost `try/except Exception` is the propagation
of `.error` to the final `Resp.err`. -/
def process_bp (env : Env) (request : Except PyErr String) (st : PState) :
    Resp × PState :=
  match request with
  | .error e => (.err e, st)
  | .ok raw =>
    let b64 := pySplitCommaLast raw
    match env.decodeImg b64 with
    | .error e => (.err e, st)
    | .ok img =>
      let gray : Image := ⟨img.h, img.w, env.grayPix img⟩
      match find_display gray env.template (env.scores gray env.template) with
      | .error e => (.err e, st)
      | .ok dres =>
        let display := dres.1
        let dx := dres.2.1
        let dy := dres.2.2
        let variance := env.lapVar display
        let glare_detected := glare_detected_of variance
        let crops := segment_fields display
        match mapExcept (ocr_tess env.tessRaw) crops with
        | .error e => (.err e, st)
        | .ok primary =>
          match mapExcept (ocr_easy env.easyRaw) crops with
          | .error e => (.err e, st)
          | .ok second =>
            let consensus := consensus_of primary second
            match primary, second with
            | [sys_s, dia_s, pul_s], [t0, t1, t2] =>
              let debug_img := env.annotateImg img dx dy
              match upload_blob env ("bp/" ++ env.uid ++ "_orig.jpg") debug_img st with
              | (.error e, st1) => (.err e, st1)
              | (.ok img_url, st1) =>
                match upload_blob env ("bp/" ++ env.uid ++ "_heat.jpg")
                    (env.colorMapImg display) st1 with
                | (.error e, st2) => (.err e, st2)
                | (.ok heat_url, st2) =>
                  let doc : Doc :=
                    { timestamp := env.now
                      glare_detected := glare_detected
                      variance := round2 variance
                      image_url := img_url
                      heatmap_url := heat_url
                      ocr_raw := ⟨sys_s, dia_s, pul_s⟩
                      consensus := consensus
                      ocr_alternates := ⟨[sys_s, t0], [dia_s, t1], [pul_s, t2]⟩
                      systolic := parse_field sys_s
                      diastolic := parse_field dia_s
                      pulse := parse_field pul_s }
                  match env.dbSetRes env.uid doc with
                  | .error e => (.err e, st2)
                  | .ok _ => (.ok doc, (st2.1, st2.2 ++ [(env.uid, doc)]))
            | _, _ => (.err "cannot unpack field texts", st)

/-- All-zero 3×1 grayscale template for the concrete test environments:
with a 3×1 input the locator's score matrix is 1×1, the display region is
the whole image and each field band is one row. -/
def tmpl0 : Image := ⟨3, 1, fun _ _ => 0⟩

/-- A 3×1 ramp image whose pixel value is its row index, making the three
field crops distinguishable by their top-left pixel. -/
def imgRamp : Image := ⟨3, 1, fun y _ => (y : ℚ)⟩

/-- Environment in which every collaborator succeeds: decode yields a 3×1
image, both recognizers read the digits `120` (tesseract with surrounding
whitespace, easyocr as two fragments), storage and the record write
succeed. -/
def envOK : Env :=
  { template := tmpl0
    decodeImg := fun _ => .ok ⟨3, 1, fun _ _ => 0⟩
    grayPix := fun im y x => im.pix y x
    scores := fun _ _ _ _ => 0
    lapVar := fun _ => 0
    tessRaw := fun _ => .ok " 120\n"
    easyRaw := fun _ => .ok ["12", "0"]
    annotateImg := fun im _ _ => im
    colorMapImg := fun im => im
    uploadRes := fun p _ => .ok p
    dbSetRes := fun _ _ => .ok ()
    now := "T"
    uid := "u" }

/-- The document `envOK` produces. -/
def docOK : Doc :=
  { timestamp := "T"
    glare_detected := true
    variance := 0
    image_url := "bp/u_orig.jpg"
    heatmap_url := "bp/u_heat.jpg"
    ocr_raw := ⟨"120", "120", "120"⟩
    consensus := true
    ocr_alternates := ⟨["120", "120"], ["120", "120"], ["120", "120"]⟩
    systolic := some 120
    diastolic := some 120
    pulse := some 120 }

/-- The persistence state after a successful run of `envOK` from empty. -/
def stOK : PState := (["bp/u_orig.jpg", "bp/u_heat.jpg"], [("u", docOK)])

/-- Like `envOK` but decoding yields the ramp image and the secondary
recognizer raises on exactly the middle (diastolic) field crop — the crop
whose top-left pixel is 1 — succeeding on any other crop. -/
def envEasyFail : Env :=
  { envOK with
    decodeImg := fun _ => .ok imgRamp
    easyRaw := fun c => if c.pix 0 0 = 1 then .error "easyocr boom" else .ok ["1"] }

/-- Like `envOK` but the secondary recognizer raises on every crop. -/
def envEasyFailAll : Env :=
  { envOK with easyRaw := fun _ => .error "easyocr boom" }

/-- Like `envOK` but the Firestore record write raises. -/
def envDbFail : Env :=
  { envOK with dbSetRes := fun _ _ => .error "db down" }

/-- A 1×1 input image, smaller than `envSmall`'s 4×4 template. -/
def imgTiny : Image := ⟨1, 1, fun _ _ => 0⟩

/-- Like `envOK` but the template is 4×4 while decoding yields the 1×1
image `imgTiny`. -/
def envSmall : Env :=
  { envOK with
    template := ⟨4, 4, fun _ _ => 0⟩
    decodeImg := fun _ => .ok imgTiny }

/-- A 2×2 all-zero grayscale image, larger than `tmplSmall`. -/
def grayBig : Image := ⟨2, 2, fun _ _ => 0⟩

/-- A 1×1 all-zero template. -/
def tmplSmall : Image := ⟨1, 1, fun _ _ => 0⟩

/-- An all-zero correlation score matrix content. -/
def zeroScores : Nat → Nat → ℚ := fun _ _ => 0

/-- Characters accepted by `Char.isDigit` are exactly the ASCII decimal
digits `0`–`9`. -/
lemma char_isDigit_iff (c : Char) : c.isDigit = true ↔ '0' ≤ c ∧ c ≤ '9' := by
  simp [Char.isDigit, Bool.and_eq_true, decide_eq_true_eq, Char.le_def]

/-- Accumulator form of the decimal fold behind `pyInt`. -/
lemma pyInt_foldl_acc (l : List Char) (a : Nat) :
    l.foldl (fun acc c => 10 * acc + (c.toNat - 48)) a
      = a * 10 ^ l.length + decimalDenote l := by
  induction l generalizing a with
  | nil => simp [decimalDenote]
  | cons c cs ih =>
    simp only [List.foldl_cons, decimalDenote, ih, List.length_cons]
    ring

/-- `pyInt` computes the decimal denotation of the character list. -/
lemma pyInt_eq_decimalDenote (s : String) : pyInt s = decimalDenote s.toList := by
  have h := pyInt_foldl_acc s.toList 0
  simpa [pyInt] using h

/-- Claim C3: a field's parsed value is present iff the primary text is
nonempty and all ASCII decimal digits, in which case it is the denoted
integer; otherwise it is `none` — never zero, and `parse_field` is total,
so no invocation error can arise from parsing. -/
theorem parse_field_spec (s : String) :
    ((parse_field s).isSome ↔ (s ≠ "" ∧ ∀ c ∈ s.toList, '0' ≤ c ∧ c ≤ '9'))
    ∧ (∀ n, parse_field s = some n → n = decimalDenote s.toList)
    ∧ (¬ (s ≠ "" ∧ ∀ c ∈ s.toList, '0' ≤ c ∧ c ≤ '9') → parse_field s = none) := by
  have hiff : pyIsDigit s = true ↔ (s ≠ "" ∧ ∀ c ∈ s.toList, '0' ≤ c ∧ c ≤ '9') := by
    obtain ⟨l⟩ := s
    simp [pyIsDigit, List.all_eq_true, char_isDigit_iff, String.ext_iff]
  refine ⟨?_, ?_, ?_⟩
  · rw [← hiff]
    unfold parse_field
    cases h : pyIsDigit s <;> simp [h]
  · intro n hn
    unfold parse_field at hn
    cases h : pyIsDigit s <;> rw [h] at hn <;> simp at hn
    rw [← hn, pyInt_eq_decimalDenote]
  · intro hnot
    have hfalse : pyIsDigit s = false := by
      cases h : pyIsDigit s
      · rfl
      · exact absurd (hiff.mp h) hnot
    unfold parse_field
    simp [hfalse]

/-- Claim C3 witness at the concrete inputs "120" and "". -/
theorem parse_field_spec_witness :
    (parse_field "120").isSome
    ∧ 120 = decimalDenote "120".toList
    ∧ parse_field "" = none :=
  ⟨(parse_field_spec "120").1.mpr (by decide),
   (parse_field_spec "120").2.1 120 (by decide),
   (parse_field_spec "").2.2 (by decide)⟩

/-- Claim C4: the overall consensus flag is true iff, field by field, the
primary and secondary raw texts are identical strings (the both-empty case
included by instantiation), and false as soon as any one field differs. -/
theorem consensus_spec (p1 p2 p3 s1 s2 s3 : String) :
    consensus_of [p1, p2, p3] [s1, s2, s3] = true ↔ (p1 = s1 ∧ p2 = s2 ∧ p3 = s3) := by
  simp [consensus_of]

/-- Claim C5: glare is flagged exactly when the variance statistic is
strictly below the constant 10, and the boundary value 10 itself is not
flagged. -/
theorem glare_spec :
    (∀ v : ℚ, glare_detected_of v = true ↔ v < 10) ∧ glare_detected_of 10 = false := by
  constructor
  · intro v
    simp [glare_detected_of, VAR_THRESHOLD]
  · simp [glare_detected_of, VAR_THRESHOLD]

/-- Claim C6: segmenting a display of height H yields exactly three bands,
each of height `H / 3` and full width, stacked top to bottom at offsets 0,
`H / 3`, `2 * (H / 3)` (index 0 is the systolic band, 1 diastolic, 2 pulse,
the destructuring order of `process_bp`); the `H % 3` remainder rows below
`3 * (H / 3)` belong to no band. -/
theorem segment_fields_spec (d : Image) :
    segment_fields d =
      [⟨d.h / 3, d.w, fun i j => d.pix i j⟩,
       ⟨d.h / 3, d.w, fun i j => d.pix (d.h / 3 + i) j⟩,
       ⟨d.h / 3, d.w, fun i j => d.pix (2 * (d.h / 3) + i) j⟩]
    ∧ d.h - 3 * (d.h / 3) = d.h % 3 := by
  constructor
  · simp only [segment_fields, npSlice, List.cons.injEq, and_true, Image.mk.injEq]
    refine ⟨⟨by omega, by omega, ?_⟩, ⟨by omega, by omega, ?_⟩, ⟨by omega, by omega, ?_⟩⟩ <;>
      · funext i j
        congr 1 <;> omega
  · omega

/-- `splitCommaAux` never returns the empty list of pieces. -/
lemma splitCommaAux_ne_nil (l : List Char) : splitCommaAux l ≠ [] := by
  induction l with
  | nil => simp [splitCommaAux]
  | cons c cs ih =>
    unfold splitCommaAux
    split
    · simp
    · cases h : splitCommaAux cs <;> simp

/-- A comma-free text splits into the single piece that is the text
itself. -/
lemma splitCommaAux_no_comma (l : List Char) (h : ',' ∉ l) :
    splitCommaAux l = [l] := by
  induction l with
  | nil => rfl
  | cons c cs ih =>
    have hc : c ≠ ',' := fun he => h (he ▸ List.mem_cons_self c cs)
    have hcs : ',' ∉ cs := fun hm => h (List.mem_cons_of_mem c hm)
    unfold splitCommaAux
    rw [if_neg hc, ih hcs]

/-- A text containing a comma splits into at least two pieces. -/
lemma splitCommaAux_two_le (l : List Char) (h : ',' ∈ l) :
    2 ≤ (splitCommaAux l).length := by
  induction l with
  | nil => cases h
  | cons c cs ih =>
    unfold splitCommaAux
    by_cases hc : c = ','
    · rw [if_pos hc]
      have := splitCommaAux_ne_nil cs
      cases hcs : splitCommaAux cs
      · exact absurd hcs this
      · simp
    · rw [if_neg hc]
      have hcs : ',' ∈ cs := by
        rcases List.mem_cons.mp h with h1 | h1
        · exact absurd h1.symm hc
        · exact h1
      have h2 := ih hcs
      cases hsp : splitCommaAux cs with
      | nil => exact absurd hsp (splitCommaAux_ne_nil cs)
      | cons t ts =>
        rw [hsp] at h2
        simpa using h2

/-- The last piece of the comma split of `p ++ ',' :: r` with comma-free
`r` is `r`. -/
lemma splitCommaAux_last_append (p r : List Char) (hr : ',' ∉ r) :
    (splitCommaAux (p ++ ',' :: r)).getLastD [] = r := by
  induction p with
  | nil =>
    rw [List.nil_append]
    unfold splitCommaAux
    rw [if_pos rfl, List.getLastD_cons, splitCommaAux_no_comma r hr]
    rfl
  | cons c cs ih =>
    rw [List.cons_append]
    unfold splitCommaAux
    by_cases hc : c = ','
    · rw [if_pos hc, List.getLastD_cons]
      exact ih
    · rw [if_neg hc]
      have hmem : ',' ∈ cs ++ ',' :: r := by simp
      have h2 := splitCommaAux_two_le _ hmem
      cases hsp : splitCommaAux (cs ++ ',' :: r) with
      | nil => exact absurd hsp (splitCommaAux_ne_nil _)
      | cons t ts =>
        rw [hsp] at h2
        cases ts with
        | nil => simp at h2
        | cons t1 ts1 =>
          rw [hsp, List.getLastD_cons, List.getLastD_cons] at ih
          show ((c :: t) :: t1 :: ts1).getLastD [] = r
          rw [List.getLastD_cons, List.getLastD_cons]
          exact ih

/-- Claim C9: the text handed to the base64 decoder is the part of the
`image_base64` field after its last comma — any data-URL style prefix up
to and including the last comma is stripped, and a comma-free payload is
passed through unchanged.  (`process_bp` feeds `pySplitCommaLast` of the
request field to the decode oracle.) -/
theorem split_payload_spec (s : String) :
    (',' ∉ s.toList → pySplitCommaLast s = s)
    ∧ (∀ p r, s.toList = p ++ ',' :: r → ',' ∉ r →
        pySplitCommaLast s = String.mk r) := by
  constructor
  · intro h
    unfold pySplitCommaLast
    rw [splitCommaAux_no_comma s.toList h]
    rfl
  · intro p r hs hr
    unfold pySplitCommaLast
    rw [hs, splitCommaAux_last_append p r hr]

/-- Claim C9 witness: a data-URL prefixed payload is stripped to the text
after the last comma; a plain payload is unchanged. -/
theorem split_payload_spec_witness :
    pySplitCommaLast "data:image/png;base64,AB" = "AB"
    ∧ pySplitCommaLast "AB" = "AB" :=
  ⟨(split_payload_spec "data:image/png;base64,AB").2
      "data:image/png;base64".toList "AB".toList (by decide) (by decide),
   (split_payload_spec "AB").1 (by decide)⟩

/-- The scan fold of `minMaxLocMax` returns either its start or a scanned
position. -/
lemma foldBest_mem (m : Image) :
    ∀ (ps : List (Nat × Nat)) (p : Nat × Nat), foldBest m p ps ∈ p :: ps := by
  intro ps
  induction ps with
  | nil =>
    intro p
    simp [foldBest]
  | cons q qs ih =>
    intro p
    have h1 : foldBest m p (q :: qs)
        = foldBest m (if m.pix p.1 p.2 < m.pix q.1 q.2 then q else p) qs := rfl
    rw [h1]
    rcases List.mem_cons.mp (ih (if m.pix p.1 p.2 < m.pix q.1 q.2 then q else p)) with h | h
    · rw [h]
      split
      · exact List.mem_cons_of_mem _ (List.mem_cons_self _ _)
      · exact List.mem_cons_self _ _
    · exact List.mem_cons_of_mem _ (List.mem_cons_of_mem _ h)

/-- Positions in the scan list are inside the grid. -/
lemma mem_allLocs (h w : Nat) (p : Nat × Nat) (hp : p ∈ allLocs h w) :
    p.1 < h ∧ p.2 < w := by
  unfold allLocs at hp
  rcases List.mem_flatMap.mp hp with ⟨y, hy, hmem⟩
  rcases List.mem_map.mp hmem with ⟨x, hx, rfl⟩
  exact ⟨List.mem_range.mp hy, List.mem_range.mp hx⟩

/-- The origin is scanned whenever the grid is nonempty. -/
lemma zero_mem_allLocs (h w : Nat) (hh : 0 < h) (hw : 0 < w) :
    ((0, 0) : Nat × Nat) ∈ allLocs h w :=
  List.mem_flatMap.mpr
    ⟨0, List.mem_range.mpr hh, List.mem_map.mpr ⟨0, List.mem_range.mpr hw, rfl⟩⟩

/-- The max location returned by `minMaxLocMax` lies inside a nonempty
score matrix. -/
lemma minMaxLocMax_bounds (m : Image) (hh : 0 < m.h) (hw : 0 < m.w) :
    (minMaxLocMax m).1 < m.w ∧ (minMaxLocMax m).2 < m.h := by
  unfold minMaxLocMax
  rcases List.mem_cons.mp (foldBest_mem m (allLocs m.h m.w) (0, 0)) with h | h
  · rw [h]
    exact ⟨hw, hh⟩
  · have hb := mem_allLocs m.h m.w _ h
    exact ⟨hb.2, hb.1⟩

/-- Claim C7: on any grayscale input at least as large as the template in
both dimensions, the locator succeeds and returns a region of exactly the
template's height and width at an offset (x, y) such that the region fits
entirely inside the input. -/
theorem find_display_spec (gray tmpl : Image) (scores : Nat → Nat → ℚ)
    (hh : tmpl.h ≤ gray.h) (hw : tmpl.w ≤ gray.w) :
    ∃ region x y, find_display gray tmpl scores = .ok (region, x, y)
      ∧ region.h = tmpl.h ∧ region.w = tmpl.w
      ∧ x + tmpl.w ≤ gray.w ∧ y + tmpl.h ≤ gray.h := by
  have hcond : ¬ (gray.h < tmpl.h ∨ gray.w < tmpl.w) := by omega
  have hres : matchTemplate gray tmpl scores
      = .ok ⟨gray.h - tmpl.h + 1, gray.w - tmpl.w + 1, scores⟩ := by
    unfold matchTemplate
    rw [if_neg hcond]
  have hb := minMaxLocMax_bounds ⟨gray.h - tmpl.h + 1, gray.w - tmpl.w + 1, scores⟩
    (by simp) (by simp)
  have heq : find_display gray tmpl scores
      = .ok (npSlice gray
               (minMaxLocMax ⟨gray.h - tmpl.h + 1, gray.w - tmpl.w + 1, scores⟩).2
               ((minMaxLocMax ⟨gray.h - tmpl.h + 1, gray.w - tmpl.w + 1, scores⟩).2 + tmpl.h)
               (minMaxLocMax ⟨gray.h - tmpl.h + 1, gray.w - tmpl.w + 1, scores⟩).1
               ((minMaxLocMax ⟨gray.h - tmpl.h + 1, gray.w - tmpl.w + 1, scores⟩).1 + tmpl.w),
             (minMaxLocMax ⟨gray.h - tmpl.h + 1, gray.w - tmpl.w + 1, scores⟩).1,
             (minMaxLocMax ⟨gray.h - tmpl.h + 1, gray.w - tmpl.w + 1, scores⟩).2) := by
    unfold find_display
    rw [hres]
  refine ⟨_, _, _, heq, ?_, ?_, ?_, ?_⟩
  · simp only [npSlice]
    simp at hb
    omega
  · simp only [npSlice]
    simp at hb
    omega
  · simp at hb
    omega
  · simp at hb
    omega

/-- Claim C7 witness at a concrete 2×2 input and 1×1 template. -/
theorem find_display_spec_witness :
    ∃ region x y, find_display grayBig tmplSmall zeroScores = .ok (region, x, y)
      ∧ region.h = tmplSmall.h ∧ region.w = tmplSmall.w
      ∧ x + tmplSmall.w ≤ grayBig.w ∧ y + tmplSmall.h ≤ grayBig.h :=
  find_display_spec grayBig tmplSmall zeroScores (by decide) (by decide)

/-- Claim C8: when the decoded input image is smaller than the template in
either dimension, template matching raises, the exception reaches the
outermost handler, and the invocation returns the error response with the
persistence state untouched — no upload, no record write, no Reading. -/
theorem undersized_input_fatal (env : Env) (raw : String) (st : PState) (img : Image)
    (hdec : env.decodeImg (pySplitCommaLast raw) = .ok img)
    (hsmall : img.h < env.template.h ∨ img.w < env.template.w) :
    process_bp env (.ok raw) st
      = (.err "matchTemplate: image smaller than template", st) := by
  have hmt : matchTemplate ⟨img.h, img.w, env.grayPix img⟩ env.template
      (env.scores ⟨img.h, img.w, env.grayPix img⟩ env.template)
      = .error "matchTemplate: image smaller than template" := by
    unfold matchTemplate
    exact if_pos hsmall
  have hfd : find_display ⟨img.h, img.w, env.grayPix img⟩ env.template
      (env.scores ⟨img.h, img.w, env.grayPix img⟩ env.template)
      = .error "matchTemplate: image smaller than template" := by
    unfold find_display
    rw [hmt]
  simp [process_bp, hdec, hfd]

/-- Claim C8 witness: a 1×1 image against `envSmall`'s 4×4 template. -/
theorem undersized_input_fatal_witness :
    process_bp envSmall (.ok "x") ([], [])
      = (.err "matchTemplate: image smaller than template", ([], [])) :=
  undersized_input_fatal envSmall "x" ([], []) imgTiny rfl (Or.inl (by decide))

/-- Inversion of a successful fallible comprehension step. -/
lemma mapExcept_cons_ok {α β : Type} (f : α → Except PyErr β) (a : α)
    (l : List α) (r : List β) (h : mapExcept f (a :: l) = .ok r) :
    ∃ b rs, f a = .ok b ∧ mapExcept f l = .ok rs ∧ r = b :: rs := by
  unfold mapExcept at h
  cases hfa : f a with
  | error e =>
    rw [hfa] at h
    simp at h
  | ok b =>
    rw [hfa] at h
    cases hrest : mapExcept f l with
    | error e =>
      rw [hrest] at h
      simp at h
    | ok bs =>
      rw [hrest] at h
      simp at h
      exact ⟨b, bs, rfl, rfl, h.symm⟩

/-- `upload_blob` only ever appends to the uploaded-blob list and never
touches the written documents, whether it succeeds or raises. -/
lemma upload_blob_inv (env : Env) (p : String) (img : Image) (st : PState)
    (r : Except PyErr String) (st1 : PState)
    (h : upload_blob env p img st = (r, st1)) :
    st1.2 = st.2 ∧ ∃ tl, st1.1 = st.1 ++ tl := by
  unfold upload_blob at h
  cases hu : env.uploadRes p img with
  | error e =>
    rw [hu] at h
    cases h
    exact ⟨rfl, [], by simp⟩
  | ok url =>
    rw [hu] at h
    cases h
    exact ⟨rfl, [p], rfl⟩

/-- Claim C1 counterexample: in `envEasyFail` every collaborator behaves,
except that the secondary recognizer raises on exactly one field (the
middle crop).  The claim predicts an empty-string substitution and a full
Reading; the code instead surfaces the raise as the invocation-level error
response (nothing persisted, no Reading). -/
theorem recognizer_raise_not_recovered_cex :
    process_bp envEasyFail (.ok "AAA") ([], []) = (.err "easyocr boom", ([], [])) := by
  with_unfolding_all rfl

/-- Claim C1 amended: an internal raise of a recognition procedure is not
recovered; if the secondary recognizer raises on every crop it reaches,
the invocation returns an error response with the persistence state
untouched — never a Reading with an empty-string substitute. -/
theorem recognizer_raise_aborts (env : Env) (request : Except PyErr String)
    (st : PState) (e : PyErr) (hfail : ∀ img, env.easyRaw img = .error e) :
    ∃ m, process_bp env request st = (.err m, st) := by
  cases request with
  | error e0 => exact ⟨e0, rfl⟩
  | ok raw =>
    cases hdec : env.decodeImg (pySplitCommaLast raw) with
    | error e1 => exact ⟨e1, by simp [process_bp, hdec]⟩
    | ok img =>
      cases hfd : find_display ⟨img.h, img.w, env.grayPix img⟩ env.template
          (env.scores ⟨img.h, img.w, env.grayPix img⟩ env.template) with
      | error e2 => exact ⟨e2, by simp [process_bp, hdec, hfd]⟩
      | ok dres =>
        cases hP : mapExcept (ocr_tess env.tessRaw) (segment_fields dres.1) with
        | error e3 => exact ⟨e3, by simp [process_bp, hdec, hfd, hP]⟩
        | ok primary =>
          have hE : mapExcept (ocr_easy env.easyRaw) (segment_fields dres.1)
              = .error e := by
            simp [segment_fields, mapExcept, ocr_easy, hfail]
          exact ⟨e, by simp [process_bp, hdec, hfd, hP, hE]⟩

/-- Claim C1 amended-claim witness: concrete environment in which the
secondary recognizer always raises. -/
theorem recognizer_raise_aborts_witness :
    ∃ m, process_bp envEasyFailAll (.ok "AAA") ([], []) = (.err m, ([], [])) :=
  recognizer_raise_aborts envEasyFailAll (.ok "AAA") ([], []) "easyocr boom"
    (fun _ => rfl)

/-- Second components of equal response/state pairs agree. -/
lemma resp_pair_snd {a b : Resp} {s t : PState} (h : (a, s) = (b, t)) : t = s :=
  ((Prod.ext_iff.mp h).2).symm

/-- Claim C2 counterexample: with `envDbFail` both image uploads succeed
and only the final record write raises.  The caller gets the structured
error response, yet the two uploaded blobs remain durably persisted —
"no partial state persisted" fails for the image uploads. -/
theorem record_write_failure_keeps_uploads_cex :
    process_bp envDbFail (.ok "AAA") ([], [])
      = (.err "db down", (["bp/u_orig.jpg", "bp/u_heat.jpg"], [])) := by
  with_unfolding_all rfl

/-- Claim C2 amended: on any fatal error the caller receives only the
error response and no record write has taken durable effect (the written
documents are unchanged); however, blob uploads completed before the
failing step remain persisted — the uploaded-blob list is only ever
extended. -/
theorem fatal_error_no_record_write (env : Env) (req : Except PyErr String)
    (st : PState) (m : String) (st' : PState)
    (h : process_bp env req st = (.err m, st')) :
    st'.2 = st.2 ∧ ∃ tl, st'.1 = st.1 ++ tl := by
  cases req with
  | error e =>
    have hst : st' = st := resp_pair_snd h
    subst hst
    exact ⟨rfl, [], by simp⟩
  | ok raw =>
    cases hdec : env.decodeImg (pySplitCommaLast raw) with
    | error e1 =>
      rw [show process_bp env (.ok raw) st = (.err e1, st) by simp [process_bp, hdec]] at h
      have hst : st' = st := resp_pair_snd h
      subst hst
      exact ⟨rfl, [], by simp⟩
    | ok img =>
      cases hfd : find_display ⟨img.h, img.w, env.grayPix img⟩ env.template
          (env.scores ⟨img.h, img.w, env.grayPix img⟩ env.template) with
      | error e2 =>
        rw [show process_bp env (.ok raw) st = (.err e2, st) by
          simp [process_bp, hdec, hfd]] at h
        have hst : st' = st := resp_pair_snd h
        subst hst
        exact ⟨rfl, [], by simp⟩
      | ok dres =>
        obtain ⟨c0, c1, c2, hc⟩ : ∃ a b c, segment_fields dres.1 = [a, b, c] :=
          ⟨_, _, _, rfl⟩
        cases hP : mapExcept (ocr_tess env.tessRaw) (segment_fields dres.1) with
        | error e3 =>
          rw [show process_bp env (.ok raw) st = (.err e3, st) by
            simp [process_bp, hdec, hfd, hP]] at h
          have hst : st' = st := resp_pair_snd h
          subst hst
          exact ⟨rfl, [], by simp⟩
        | ok primary =>
          cases hE : mapExcept (ocr_easy env.easyRaw) (segment_fields dres.1) with
          | error e4 =>
            rw [show process_bp env (.ok raw) st = (.err e4, st) by
              simp [process_bp, hdec, hfd, hP, hE]] at h
            have hst : st' = st := resp_pair_snd h
            subst hst
            exact ⟨rfl, [], by simp⟩
          | ok second =>
            rw [hc] at hP hE
            obtain ⟨x0, p1, hx0, hP1, rfl⟩ := mapExcept_cons_ok _ _ _ _ hP
            obtain ⟨x1, p2, hx1, hP2, rfl⟩ := mapExcept_cons_ok _ _ _ _ hP1
            obtain ⟨x2, p3, hx2, hP3, rfl⟩ := mapExcept_cons_ok _ _ _ _ hP2
            have hp3 : p3 = [] := by
              unfold mapExcept at hP3
              simpa using hP3.symm
            subst hp3
            obtain ⟨y0, q1, hy0, hE1, rfl⟩ := mapExcept_cons_ok _ _ _ _ hE
            obtain ⟨y1, q2, hy1, hE2, rfl⟩ := mapExcept_cons_ok _ _ _ _ hE1
            obtain ⟨y2, q3, hy2, hE3, rfl⟩ := mapExcept_cons_ok _ _ _ _ hE2
            have hq3 : q3 = [] := by
              unfold mapExcept at hE3
              simpa using hE3.symm
            subst hq3
            simp only [process_bp, hdec, hfd, hc, hP, hE] at h
            split at h
            · rename_i e5 st1 heq1
              obtain ⟨hdocs1, tl1, htl1⟩ := upload_blob_inv _ _ _ _ _ _ heq1
              have hst : st' = st1 := resp_pair_snd h
              subst hst
              exact ⟨hdocs1, tl1, htl1⟩
            · rename_i u1 st1 heq1
              split at h
              · rename_i e6 st2 heq2
                obtain ⟨hdocs1, tl1, htl1⟩ := upload_blob_inv _ _ _ _ _ _ heq1
                obtain ⟨hdocs2, tl2, htl2⟩ := upload_blob_inv _ _ _ _ _ _ heq2
                have hst : st' = st2 := resp_pair_snd h
                subst hst
                refine ⟨by rw [hdocs2, hdocs1], tl1 ++ tl2, ?_⟩
                rw [htl2, htl1, List.append_assoc]
              · rename_i u2 st2 heq2
                split at h
                · rename_i e7 heq3
                  obtain ⟨hdocs1, tl1, htl1⟩ := upload_blob_inv _ _ _ _ _ _ heq1
                  obtain ⟨hdocs2, tl2, htl2⟩ := upload_blob_inv _ _ _ _ _ _ heq2
                  have hst : st' = st2 := resp_pair_snd h
                  subst hst
                  refine ⟨by rw [hdocs2, hdocs1], tl1 ++ tl2, ?_⟩
                  rw [htl2, htl1, List.append_assoc]
                · simp at h

/-- Claim C2 amended-claim witness at the concrete record-write failure. -/
theorem fatal_error_no_record_write_witness :
    ((["bp/u_orig.jpg", "bp/u_heat.jpg"], ([] : List (String × Doc))).2
        = (([] : List String), ([] : List (String × Doc))).2)
    ∧ ∃ tl, (["bp/u_orig.jpg", "bp/u_heat.jpg"], ([] : List (String × Doc))).1
        = (([] : List String), ([] : List (String × Doc))).1 ++ tl :=
  fatal_error_no_record_write envDbFail (.ok "AAA") ([], []) "db down"
    (["bp/u_orig.jpg", "bp/u_heat.jpg"], []) (by with_unfolding_all rfl)

/-- Claim C10: in every successfully produced Reading, each field's
`ocr_raw` text is the first element of that field's two-element
`ocr_alternates` array — both being the primary recognizer's trimmed text
for that field's crop (`ocr_tess` strips) — and the second element is the
secondary recognizer's trimmed, concatenated text for the same crop
(`ocr_easy` joins and strips). -/
theorem alternates_pair_spec (env : Env) (req : Except PyErr String)
    (st : PState) (doc : Doc) (st' : PState)
    (h : process_bp env req st = (.ok doc, st')) :
    ∃ disp c0 c1 c2 t0 t1 t2,
      segment_fields disp = [c0, c1, c2]
      ∧ ocr_tess env.tessRaw c0 = .ok doc.ocr_raw.sys
      ∧ ocr_tess env.tessRaw c1 = .ok doc.ocr_raw.dia
      ∧ ocr_tess env.tessRaw c2 = .ok doc.ocr_raw.pul
      ∧ ocr_easy env.easyRaw c0 = .ok t0
      ∧ ocr_easy env.easyRaw c1 = .ok t1
      ∧ ocr_easy env.easyRaw c2 = .ok t2
      ∧ doc.ocr_alternates.sys = [doc.ocr_raw.sys, t0]
      ∧ doc.ocr_alternates.dia = [doc.ocr_raw.dia, t1]
      ∧ doc.ocr_alternates.pul = [doc.ocr_raw.pul, t2] := by
  cases req with
  | error e => simp [process_bp] at h
  | ok raw =>
    cases hdec : env.decodeImg (pySplitCommaLast raw) with
    | error e1 => simp [process_bp, hdec] at h
    | ok img =>
      cases hfd : find_display ⟨img.h, img.w, env.grayPix img⟩ env.template
          (env.scores ⟨img.h, img.w, env.grayPix img⟩ env.template) with
      | error e2 => simp [process_bp, hdec, hfd] at h
      | ok dres =>
        obtain ⟨c0, c1, c2, hc⟩ : ∃ a b c, segment_fields dres.1 = [a, b, c] :=
          ⟨_, _, _, rfl⟩
        cases hP : mapExcept (ocr_tess env.tessRaw) (segment_fields dres.1) with
        | error e3 => simp [process_bp, hdec, hfd, hP] at h
        | ok primary =>
          cases hE : mapExcept (ocr_easy env.easyRaw) (segment_fields dres.1) with
          | error e4 => simp [process_bp, hdec, hfd, hP, hE] at h
          | ok second =>
            rw [hc] at hP hE
            obtain ⟨x0, p1, hx0, hP1, rfl⟩ := mapExcept_cons_ok _ _ _ _ hP
            obtain ⟨x1, p2, hx1, hP2, rfl⟩ := mapExcept_cons_ok _ _ _ _ hP1
            obtain ⟨x2, p3, hx2, hP3, rfl⟩ := mapExcept_cons_ok _ _ _ _ hP2
            have hp3 : p3 = [] := by
              unfold mapExcept at hP3
              simpa using hP3.symm
            subst hp3
            obtain ⟨y0, q1, hy0, hE1, rfl⟩ := mapExcept_cons_ok _ _ _ _ hE
            obtain ⟨y1, q2, hy1, hE2, rfl⟩ := mapExcept_cons_ok _ _ _ _ hE1
            obtain ⟨y2, q3, hy2, hE3, rfl⟩ := mapExcept_cons_ok _ _ _ _ hE2
            have hq3 : q3 = [] := by
              unfold mapExcept at hE3
              simpa using hE3.symm
            subst hq3
            simp only [process_bp, hdec, hfd, hc, hP, hE] at h
            split at h
            · simp at h
            · rename_i u1 st1 heq1
              split at h
              · simp at h
              · rename_i u2 st2 heq2
                split at h
                · simp at h
                · rename_i u3 heq3
                  obtain ⟨h1, h2⟩ := Prod.ext_iff.mp h
                  have hd := Resp.ok.inj h1
                  subst hd
                  exact ⟨dres.1, c0, c1, c2, y0, y1, y2, hc,
                    hx0, hx1, hx2, hy0, hy1, hy2, rfl, rfl, rfl⟩

/-- Claim C10 witness at the fully successful concrete run of `envOK`. -/
theorem alternates_pair_spec_witness :
    ∃ disp c0 c1 c2 t0 t1 t2,
      segment_fields disp = [c0, c1, c2]
      ∧ ocr_tess envOK.tessRaw c0 = .ok docOK.ocr_raw.sys
      ∧ ocr_tess envOK.tessRaw c1 = .ok docOK.ocr_raw.dia
      ∧ ocr_tess envOK.tessRaw c2 = .ok docOK.ocr_raw.pul
      ∧ ocr_easy envOK.easyRaw c0 = .ok t0
      ∧ ocr_easy envOK.easyRaw c1 = .ok t1
      ∧ ocr_easy envOK.easyRaw c2 = .ok t2
      ∧ docOK.ocr_alternates.sys = [docOK.ocr_raw.sys, t0]
      ∧ docOK.ocr_alternates.dia = [docOK.ocr_raw.dia, t1]
      ∧ docOK.ocr_alternates.pul = [docOK.ocr_raw.pul, t2] :=
  alternates_pair_spec envOK (.ok "AAA") ([], []) docOK stOK
    (by with_unfolding_all rfl)

/-- Claim C4 witness at concrete agreeing texts, empty string included. -/
theorem consensus_spec_witness :
    consensus_of ["120", "", "72"] ["120", "", "72"] = true :=
  (consensus_spec "120" "" "72" "120" "" "72").mpr ⟨rfl, rfl, rfl⟩

/-- Claim C5 witness: a flat (zero-variance) region is flagged as glare. -/
theorem glare_spec_witness : glare_detected_of 0 = true :=
  (glare_spec.1 0).mpr (by decide)

/-- Claim C6 witness at the concrete 3×1 ramp image. -/
theorem segment_fields_spec_witness :
    segment_fields imgRamp =
      [⟨imgRamp.h / 3, imgRamp.w, fun i j => imgRamp.pix i j⟩,
       ⟨imgRamp.h / 3, imgRamp.w, fun i j => imgRamp.pix (imgRamp.h / 3 + i) j⟩,
       ⟨imgRamp.h / 3, imgRamp.w, fun i j => imgRamp.pix (2 * (imgRamp.h / 3) + i) j⟩]
    ∧ imgRamp.h - 3 * (imgRamp.h / 3) = imgRamp.h % 3 :=
  segment_fields_spec imgRamp
